import Mathlib

/-!
Verification of `backend/llm.py`: a streaming interface over three LLM
provider variants (direct OpenAI API, native Anthropic SDK, AWS Bedrock
managed gateway) with message-format translation and a fixed two-pass
"draft then refine" orchestrator.

The Python code is shallowly embedded:
* Python exceptions become an explicit `PyError` / `Except` discipline;
* the mutable list of content-part dicts shared (by reference) between the
  caller's messages and the shallow-copied translated messages becomes an
  explicit `Store` (list of parts) that messages index into, so the
  in-place mutation performed by the translation loop is observable;
* the provider transports (network) become explicit inputs: a list of
  chunks/events, or a per-pass function for the orchestrators.
-/

namespace LlmPy

instance {ε α : Type} [DecidableEq ε] [DecidableEq α] : DecidableEq (Except ε α) := fun x y =>
  match x, y with
  | .ok a, .ok b =>
    if h : a = b then isTrue (by rw [h]) else isFalse (by intro hh; cases hh; exact h rfl)
  | .error a, .error b =>
    if h : a = b then isTrue (by rw [h]) else isFalse (by intro hh; cases hh; exact h rfl)
  | .ok _, .error _ => isFalse (by intro hh; cases hh)
  | .error _, .ok _ => isFalse (by intro hh; cases hh)

set_option maxRecDepth 40000 in
/-- Python exceptions relevant to `llm.py`. `indexError` models the
`IndexError` raised by an out-of-range `[...]` index (in particular a
data-URL `split` that yields too few components), `keyError` a missing
dict key, `valueError` the `ValueError` raised by `Llm(garbage)`,
`clientError` a `botocore` `ClientError`, `exception` a plain
`Exception(msg)` raise. -/
inductive PyError where
  | indexError
  | keyError
  | valueError
  | clientError (msg : String)
  | exception (msg : String)
deriving DecidableEq

/-- The `Llm` enum of `llm.py` (lines 16-21). -/
inductive Llm where
  | GPT_4_VISION
  | GPT_4_TURBO_2024_04_09
  | CLAUDE_3_SONNET
  | CLAUDE_3_OPUS
  | CLAUDE_3_HAIKU
deriving DecidableEq

/-- The string value of each `Llm` enum member. -/
def Llm.value : Llm → String
  | .GPT_4_VISION => "gpt-4-vision-preview"
  | .GPT_4_TURBO_2024_04_09 => "gpt-4-turbo-2024-04-09"
  | .CLAUDE_3_SONNET => "claude-3-sonnet-20240229"
  | .CLAUDE_3_OPUS => "claude-3-opus-20240229"
  | .CLAUDE_3_HAIKU => "claude-3-haiku-20240307"

/-- All members of the `Llm` enum, in declaration order. -/
def Llm.members : List Llm :=
  [.GPT_4_VISION, .GPT_4_TURBO_2024_04_09, .CLAUDE_3_SONNET, .CLAUDE_3_OPUS,
   .CLAUDE_3_HAIKU]

/-- `convert_frontend_str_to_llm` (lines 25-31): two special-cased legacy
short names, otherwise the Python `Llm(frontend_str)` value lookup, which
raises `ValueError` when no member has that value. -/
def convert_frontend_str_to_llm (frontend_str : String) : Except PyError Llm :=
  if frontend_str = "gpt_4_vision" then .ok .GPT_4_VISION
  else if frontend_str = "claude_3_sonnet" then .ok .CLAUDE_3_SONNET
  else
    match Llm.members.find? (fun m => m.value = frontend_str) with
    | some m => .ok m
    | none => .error .valueError

/-! ### Data-URL parsing

Python's single-character `str.split` over the characters of a string. -/

/-- Python `s.split(sep)` for a one-character separator: splits on every
occurrence, keeping empty components; never returns an empty list. -/
def pySplit (sep : Char) : List Char → List (List Char)
  | [] => [[]]
  | c :: rest =>
    match pySplit sep rest with
    | [] => [[]]
    | h :: t => if c = sep then [] :: h :: t else (c :: h) :: t

/-- `image_data_url.split(";")[0].split(":")[1]` (line 97): `none` models
the `IndexError` when index 1 does not exist. -/
def mediaTypeOf (url : String) : Option String :=
  ((pySplit ':' ((pySplit ';' url.data).headD []))[1]?).map String.mk

/-- `image_data_url.split(",")[1]` (line 98): `none` models the
`IndexError` when the URL has no comma. -/
def payloadOf (url : String) : Option String :=
  ((pySplit ',' url.data)[1]?).map String.mk

/-- The nested `"source"` dict written by the translation (lines 103-107). -/
structure ImageSource where
  type : String
  media_type : String
  data : String
deriving DecidableEq

/-- One content-part dict: its `"type"` tag, the optional `"image_url"`
value (flattened to its `"url"` string), and the optional `"source"`. -/
structure ContentPart where
  type : String
  image_url : Option String
  source : Option ImageSource
deriving DecidableEq

/-- Rewriting of one part tagged `"image_url"` (lines 92-107): set the
type to `"image"`, parse the data URL (media type first, then payload,
either failure being an `IndexError`), delete `image_url`, add `source`. -/
def rewriteImagePart (p : ContentPart) : Except PyError ContentPart :=
  match p.image_url with
  | none => .error .keyError
  | some url =>
    match mediaTypeOf url with
    | none => .error .indexError
    | some mt =>
      match payloadOf url with
      | none => .error .indexError
      | some b64 => .ok ⟨"image", none, some ⟨"base64", mt, b64⟩⟩

/-- Message content: either a plain string or a list of content parts.
Parts are held by reference (indices into a `Store`), since the Python
shallow copy `dict(message)` shares the content list and its part dicts
with the caller's original messages. -/
inductive MsgContent where
  | str (s : String)
  | parts (ids : List Nat)
deriving DecidableEq

/-- One message dict: `"role"` and `"content"`. -/
structure Msg where
  role : String
  content : MsgContent
deriving DecidableEq

/-- The heap of content-part dicts that messages reference. -/
abbrev Store := List ContentPart

/-- The inner translation loop over one message's content list
(lines 90-107): each part tagged `"image_url"` is rewritten in place
(through the shared reference, i.e. the store is updated at that index). -/
def updateParts : List Nat → Store → Except PyError Store
  | [], st => .ok st
  | id :: rest, st =>
    match st[id]? with
    | none => .error .indexError
    | some p =>
      if p.type = "image_url" then
        match rewriteImagePart p with
        | .error e => .error e
        | .ok p2 => updateParts rest (st.set id p2)
      else updateParts rest st

/-- The outer translation loop over `claude_messages` (lines 86-107):
messages whose content is not a list are skipped. -/
def updateMsgs : List Msg → Store → Except PyError Store
  | [], st => .ok st
  | m :: rest, st =>
    match m.content with
    | .str _ => updateMsgs rest st
    | .parts ids =>
      match updateParts ids st with
      | .error e => .error e
      | .ok st2 => updateMsgs rest st2

/-- The OpenAI-to-Claude message translation (lines 84-107, identically
lines 151-174): the first message's content becomes the system prompt,
the remaining messages are shallow-copied into the translated turn list
(sharing their content parts with the caller's originals, which is why
the returned store reflects the in-place image rewrites), and every
image part they reference is rewritten. An empty message list models the
`IndexError` of `messages[0]`. -/
def translate (messages : List Msg) (store : Store) :
    Except PyError (MsgContent × List Msg × Store) :=
  match messages with
  | [] => .error .indexError
  | m0 :: rest =>
    match updateMsgs rest store with
    | .error e => .error e
    | .ok st2 => .ok (m0.content, rest, st2)

/-! ### Streaming decode loops -/

/-- Concatenation of a list of strings, in order. -/
def strJoin : List String → String
  | [] => ""
  | s :: rest => s ++ strJoin rest

/-- `stream_openai_response`'s accumulation loop (lines 57-62): every
chunk's `delta.content or ""` is both appended to `full_response` and
delivered to the callback (the second component records the callback
arguments in order). -/
def openaiLoop : List (Option String) → String → List String → String × List String
  | [], full_response, calls => (full_response, calls)
  | c :: rest, full_response, calls =>
    openaiLoop rest (full_response ++ c.getD "") (calls ++ [c.getD ""])

/-- `stream_openai_response` (lines 34-66), with the transport modelled
as the list of per-chunk `delta.content` values (`none` for a chunk
whose content is absent). Returns the final text and the callback log. -/
def stream_openai_response (chunks : List (Option String)) : String × List String :=
  openaiLoop chunks "" []

/-- One decoded Bedrock stream event: either an event without a
`"chunk"` key, or the JSON object decoded from the chunk bytes, reduced
to the fields the code reads: its `"type"` and, when present, its
`"delta"]["text"`. -/
inductive BedrockEvent where
  | noChunk
  | chunk (type : String) (delta : Option String)
deriving DecidableEq

/-- The Bedrock event decode loop (lines 196-205, identically lines
373-384): only events carrying a chunk whose type is
`"content_block_delta"` contribute text; the text is delivered to the
callback and appended to the accumulator; a delta event without a text
field models the `KeyError` of `chunk_obj["delta"]["text"]`. -/
def decodeEventLoop : List BedrockEvent → String → List String →
    Except PyError (String × List String)
  | [], final_message, calls => .ok (final_message, calls)
  | .noChunk :: rest, final_message, calls => decodeEventLoop rest final_message calls
  | .chunk type delta :: rest, final_message, calls =>
    if type = "content_block_delta" then
      match delta with
      | none => .error .keyError
      | some text => decodeEventLoop rest (final_message ++ text) (calls ++ [text])
    else decodeEventLoop rest final_message calls

/-- The text contributed by one event: `some` exactly for the
text-bearing events (chunk present, type `"content_block_delta"`). -/
def deltaOf : BedrockEvent → Option String
  | .noChunk => none
  | .chunk type delta => if type = "content_block_delta" then delta else none

/-- The native-SDK transport for one streaming call: the increments its
`text_stream` yields, and the `content[0].text` of its
`get_final_message()`. -/
structure NativePass where
  textStream : List String
  finalText : String

/-- `stream_claude_response` (lines 70-126): translate the messages,
stream (each `text_stream` increment goes to the callback), return the
transport's final aggregated text. Result: final text, post-call store
(the caller's content parts after the in-place rewrites), callback log. -/
def stream_claude_response (messages : List Msg) (store : Store) (t : NativePass) :
    Except PyError (String × Store × List String) :=
  match translate messages store with
  | .error e => .error e
  | .ok (_sys, _turns, store2) => .ok (t.finalText, store2, t.textStream)

/-- The body of `stream_claude_response_aws_bedrock` inside its `try`
(lines 136-207): translate, invoke (the transport input models
`invoke_model_with_response_stream`, which may raise), decode. -/
def bedrockBody (messages : List Msg) (store : Store)
    (invoke : Except PyError (List BedrockEvent)) :
    Except PyError (String × Store × List String) :=
  match translate messages store with
  | .error e => .error e
  | .ok (_sys, _turns, store2) =>
    match invoke with
    | .error e => .error e
    | .ok events =>
      match decodeEventLoop events "" [] with
      | .error e => .error e
      | .ok (final_message, calls) => .ok (final_message, store2, calls)

/-- Outcome of a Bedrock call as seen by the caller: a normal return, a
`ClientError` caught by the first handler (which prints and falls
through, so the function returns `None`), or an exception re-raised by
the second handler. -/
inductive BedrockOutcome (α : Type) where
  | ok (a : α)
  | swallowedClientError (printed : String)
  | raised (e : PyError)
deriving DecidableEq

/-- The `try`/`except` wrapper shared by both Bedrock functions
(lines 209-214, 405-410): a `ClientError` is caught, a message printed,
and the function falls through (returns `None`); every other exception
is printed and re-raised. -/
def bedrockWrap {α : Type} : Except PyError α → BedrockOutcome α
  | .ok a => .ok a
  | .error (.clientError m) => .swallowedClientError ("A client error occurred: " ++ m)
  | .error e => .raised e

/-- `stream_claude_response_aws_bedrock` (lines 129-214). -/
def stream_claude_response_aws_bedrock (messages : List Msg) (store : Store)
    (invoke : Except PyError (List BedrockEvent)) :
    BedrockOutcome (String × Store × List String) :=
  bedrockWrap (bedrockBody messages store invoke)

/-! ### Multi-pass orchestrators -/

/-- The literal `"<thinking>"` marker (lines 235, 334). -/
def prefixStr : String := "<thinking>"

/-- The provisional assistant turn added to the outgoing request when
`include_thinking` is set (lines 247, 346). -/
def prefixMsg : Msg := ⟨"assistant", .str prefixStr⟩

/-- The fixed user follow-up instruction appended between passes
(lines 283-286, 390-393). -/
def followUpMsg : Msg :=
  ⟨"user", .str "You\x27ve done a good job with a first draft. Improve this further based on the original instructions so that the app is fully functional and looks like the original video of the app we\x27re trying to replicate."⟩

/-- The `while current_pass_num <= max_passes` loop of
`stream_claude_response_native` (lines 242-291), recursing on the number
of remaining passes. State: the live message list, `full_stream`, the
last pass's final text (`none` before any pass), and the log of the
message lists sent to the transport, one per pass. -/
def runNativePasses (passes : Nat → NativePass) (include_thinking : Bool) :
    Nat → Nat → List Msg → String → Option String → List (List Msg) →
    List Msg × String × Option String × List (List Msg)
  | _passNum, 0, messages, full_stream, response, requests =>
    (messages, full_stream, response, requests)
  | passNum, remaining + 1, messages, full_stream, _response, requests =>
    let messages_to_send := if include_thinking then messages ++ [prefixMsg] else messages
    let p := passes passNum
    let response_text := p.finalText
    runNativePasses passes include_thinking (passNum + 1) remaining
      (messages ++ [⟨"assistant", .str (prefixStr ++ response_text)⟩, followUpMsg])
      (full_stream ++ strJoin p.textStream)
      (some response_text)
      (requests ++ [messages_to_send])

/-- `stream_claude_response_native` (lines 216-302): two passes; the
transport is a per-pass `NativePass` (pass numbers 1 and 2). Returns the
final `response.content[0].text`, the message list after the loop, and
the per-pass requests; raises when no pass produced a response. -/
def stream_claude_response_native (_system_prompt : String) (messages : List Msg)
    (passes : Nat → NativePass) (include_thinking : Bool) :
    Except PyError (String × List Msg × List (List Msg)) :=
  match runNativePasses passes include_thinking 1 2 messages "" none [] with
  | (messages2, _full_stream, response, requests) =>
    match response with
    | none => .error (.exception "No HTML response found in AI response")
    | some t => .ok (t, messages2, requests)

/-- The pass loop of `stream_claude_response_native_aws_bedrock`
(lines 341-394): per pass, `invoke_model_with_response_stream` (which
may raise) yields the event list, the decode loop accumulates the
pass's `response_text` and extends `full_stream`, and the two entries
are appended to the message list. The `Bool` records whether `response`
is set (truthy). -/
def runBedrockPasses (passes : Nat → Except PyError (List BedrockEvent))
    (include_thinking : Bool) :
    Nat → Nat → List Msg → String → Bool → List (List Msg) →
    Except PyError (List Msg × String × Bool × List (List Msg))
  | _passNum, 0, messages, full_stream, responded, requests =>
    .ok (messages, full_stream, responded, requests)
  | passNum, remaining + 1, messages, full_stream, _responded, requests =>
    let messages_to_send := if include_thinking then messages ++ [prefixMsg] else messages
    match passes passNum with
    | .error e => .error e
    | .ok events =>
      match decodeEventLoop events "" [] with
      | .error e => .error e
      | .ok (response_text, _calls) =>
        runBedrockPasses passes include_thinking (passNum + 1) remaining
          (messages ++ [⟨"assistant", .str (prefixStr ++ response_text)⟩, followUpMsg])
          (full_stream ++ response_text)
          true
          (requests ++ [messages_to_send])

/-- `stream_claude_response_native_aws_bedrock` (lines 304-410): two
passes inside the same `try`/`except` wrapper as the single-call Bedrock
function. On normal termination it returns `full_stream` (the text
accumulated across every pass), the message list after the loop, and the
per-pass requests; with no response it raises inside the `try`, so that
exception is re-raised by the generic handler. -/
def stream_claude_response_native_aws_bedrock (_system_prompt : String)
    (messages : List Msg) (passes : Nat → Except PyError (List BedrockEvent))
    (include_thinking : Bool) :
    BedrockOutcome (String × List Msg × List (List Msg)) :=
  bedrockWrap
    (match runBedrockPasses passes include_thinking 1 2 messages "" false [] with
     | .error e => .error e
     | .ok (messages2, full_stream, responded, requests) =>
       if responded then .ok (full_stream, messages2, requests)
       else .error (.exception "No HTML response found in AI response"))

/-- The two entries appended to the message list after a pass whose text
was `t1`, then after a pass whose text was `t2` (lines 281-287,
388-394). -/
def passEntries (t1 t2 : String) : List Msg :=
  [⟨"assistant", .str (prefixStr ++ t1)⟩, followUpMsg,
   ⟨"assistant", .str (prefixStr ++ t2)⟩, followUpMsg]

/-- The two per-pass `messages_to_send` request lists, for a run whose
pass-1 text was `t1`: each carries the provisional prefix turn exactly
when `include_thinking` is on. -/
def sentRequests (msgs : List Msg) (t1 : String) (it : Bool) : List (List Msg) :=
  [if it then msgs ++ [prefixMsg] else msgs,
   if it then
     msgs ++ [⟨"assistant", .str (prefixStr ++ t1)⟩, followUpMsg, prefixMsg]
   else
     msgs ++ [⟨"assistant", .str (prefixStr ++ t1)⟩, followUpMsg]]

/-- The closed set of frontend strings the model lookup recognizes: the
two legacy short names plus the raw enum values. -/
def recognizedNames : List String :=
  "gpt_4_vision" :: "claude_3_sonnet" :: Llm.members.map Llm.value

/-! ### Sample inputs for witnesses and counterexamples -/

/-- A message list whose head is the system prompt. -/
def sampleMsgs : List Msg := [⟨"system", .str "sp"⟩, ⟨"user", .str "hi"⟩]

/-- A caller message list for the orchestrators. -/
def userMsgs : List Msg := [⟨"user", .str "hi"⟩]

/-- A fake native transport: pass 1 streams and finishes with `"A"`,
pass 2 with `"B"`. -/
def passAB : Nat → NativePass :=
  fun n => if n = 1 then ⟨["A"], "A"⟩ else ⟨["B"], "B"⟩

/-- A fake Bedrock transport: pass 1 yields one content delta `"A"`,
pass 2 one content delta `"B"`. -/
def bedrockAB : Nat → Except PyError (List BedrockEvent) :=
  fun n =>
    if n = 1 then .ok [.chunk "content_block_delta" (some "A")]
    else .ok [.chunk "content_block_delta" (some "B")]

/-- A store with one image part holding a well-formed data URL. -/
def imageStore : Store := [⟨"image_url", some "data:image/png;base64,AAAA", none⟩]

/-- The image part of `imageStore` after the in-place rewrite. -/
def imagePartRewritten : ContentPart :=
  ⟨"image", none, some ⟨"base64", "image/png", "AAAA"⟩⟩

/-- A message list whose second message references the image part. -/
def imageMsgs : List Msg := [⟨"system", .str "sp"⟩, ⟨"user", .parts [0]⟩]

/-! ### Helper lemmas -/

theorem str_length_zero {s : String} (h : s.length = 0) : s = "" := by
  cases s with
  | mk data =>
    cases data with
    | nil => rfl
    | cons a l => simp [String.length] at h

theorem str_append_right_ne {s t : String} (h : t ≠ "") : s ++ t ≠ s := by
  intro he
  have hl := congrArg String.length he
  rw [String.length_append] at hl
  exact h (str_length_zero (by omega))

theorem pySplit_ne_nil (sep : Char) (l : List Char) : pySplit sep l ≠ [] := by
  cases l with
  | nil => simp [pySplit]
  | cons c rest =>
    simp only [pySplit]
    cases hr : pySplit sep rest with
    | nil => simp
    | cons h t => by_cases hc : c = sep <;> simp [hc]

theorem pySplit_not_mem {sep : Char} {l : List Char} (h : sep ∉ l) :
    pySplit sep l = [l] := by
  induction l with
  | nil => rfl
  | cons c rest ih =>
    simp only [List.mem_cons, not_or] at h
    have hne : ¬ c = sep := fun he => h.1 he.symm
    simp [pySplit, ih h.2, hne]

theorem pySplit_append {sep : Char} {xs : List Char} (ys : List Char) (h : sep ∉ xs) :
    pySplit sep (xs ++ sep :: ys) = xs :: pySplit sep ys := by
  induction xs with
  | nil =>
    simp only [List.nil_append, pySplit]
    cases hr : pySplit sep ys with
    | nil => exact absurd hr (pySplit_ne_nil sep ys)
    | cons hh tt => simp
  | cons c rest ih =>
    simp only [List.mem_cons, not_or] at h
    have hne : ¬ c = sep := fun he => h.1 he.symm
    simp [pySplit, ih h.2, hne]

theorem strJoin_append (l1 l2 : List String) :
    strJoin (l1 ++ l2) = strJoin l1 ++ strJoin l2 := by
  induction l1 with
  | nil => simp [strJoin]
  | cons s rest ih => simp [strJoin, ih, String.append_assoc]

theorem openaiLoop_eq (chunks : List (Option String)) :
    ∀ acc calls, openaiLoop chunks acc calls =
      (acc ++ strJoin (chunks.map (fun c => c.getD "")),
       calls ++ chunks.map (fun c => c.getD "")) := by
  induction chunks with
  | nil => intro acc calls; simp [openaiLoop, strJoin]
  | cons c rest ih =>
    intro acc calls
    simp [openaiLoop, ih, strJoin, String.append_assoc]

theorem decodeEventLoop_ok {events : List BedrockEvent} :
    ∀ {acc calls f cs}, decodeEventLoop events acc calls = .ok (f, cs) →
      f = acc ++ strJoin (events.filterMap deltaOf) ∧
      cs = calls ++ events.filterMap deltaOf := by
  induction events with
  | nil =>
    intro acc calls f cs h
    simp only [decodeEventLoop, Except.ok.injEq, Prod.mk.injEq] at h
    simp [← h.1, ← h.2, strJoin]
  | cons e rest ih =>
    intro acc calls f cs h
    cases e with
    | noChunk =>
      simp only [decodeEventLoop] at h
      obtain ⟨h1, h2⟩ := ih h
      simp [deltaOf, h1, h2]
    | chunk type delta =>
      simp only [decodeEventLoop] at h
      by_cases ht : type = "content_block_delta"
      · rw [if_pos ht] at h
        cases delta with
        | none => cases h
        | some text =>
          obtain ⟨h1, h2⟩ := ih h
          simp [deltaOf, ht, h1, h2, strJoin, String.append_assoc]
      · rw [if_neg ht] at h
        obtain ⟨h1, h2⟩ := ih h
        simp [deltaOf, ht, h1, h2]

theorem mediaTypeOf_wellFormed {mt d : List Char} {url : String}
    (hurl : url.data = "data:".data ++ mt ++ ";base64,".data ++ d)
    (h1 : ';' ∉ mt) (h2 : ':' ∉ mt) :
    mediaTypeOf url = some (String.mk mt) := by
  have hd : "data:".data = ['d', 'a', 't', 'a', ':'] := rfl
  have hb : ";base64,".data = [';', 'b', 'a', 's', 'e', '6', '4', ','] := rfl
  have hshape : url.data =
      (['d', 'a', 't', 'a', ':'] ++ mt) ++ ';' :: (['b', 'a', 's', 'e', '6', '4', ','] ++ d) := by
    rw [hurl, hd, hb]; simp
  have hsemi : ';' ∉ ['d', 'a', 't', 'a', ':'] ++ mt := by
    simp only [List.mem_append, not_or]
    exact ⟨by decide, h1⟩
  have hsplit1 := pySplit_append (['b', 'a', 's', 'e', '6', '4', ','] ++ d) hsemi
  have hshape2 : ['d', 'a', 't', 'a', ':'] ++ mt = ['d', 'a', 't', 'a'] ++ ':' :: mt := by simp
  have hcolon : ':' ∉ ['d', 'a', 't', 'a'] := by decide
  unfold mediaTypeOf
  rw [hshape, hsplit1, List.headD_cons, hshape2,
    pySplit_append mt hcolon, pySplit_not_mem h2]
  rfl

theorem payloadOf_wellFormed {mt d : List Char} {url : String}
    (hurl : url.data = "data:".data ++ mt ++ ";base64,".data ++ d)
    (h1 : ',' ∉ mt) (h2 : ',' ∉ d) :
    payloadOf url = some (String.mk d) := by
  have hd : "data:".data = ['d', 'a', 't', 'a', ':'] := rfl
  have hb : ";base64,".data = [';', 'b', 'a', 's', 'e', '6', '4', ','] := rfl
  have hshape : url.data =
      (['d', 'a', 't', 'a', ':'] ++ mt ++ [';', 'b', 'a', 's', 'e', '6', '4']) ++ ',' :: d := by
    rw [hurl, hd, hb]; simp
  have hcomma : ',' ∉ ['d', 'a', 't', 'a', ':'] ++ mt ++ [';', 'b', 'a', 's', 'e', '6', '4'] := by
    simp only [List.mem_append, not_or]
    exact ⟨⟨by decide, h1⟩, by decide⟩
  simp only [payloadOf, hshape, pySplit_append d hcomma, pySplit_not_mem h2]
  rfl

theorem payloadOf_noComma {url : String} (h : ',' ∉ url.data) : payloadOf url = none := by
  simp [payloadOf, pySplit_not_mem h]

/-- Rewriting a well-formed image part succeeds with the media type and
payload segments. -/
theorem rewriteImagePart_wellFormed {mt d : List Char} {url : String}
    (src : Option ImageSource)
    (hurl : url.data = "data:".data ++ mt ++ ";base64,".data ++ d)
    (hsemi : ';' ∉ mt) (hcolon : ':' ∉ mt) (hm : ',' ∉ mt) (hd : ',' ∉ d) :
    rewriteImagePart ⟨"image_url", some url, src⟩ =
      .ok ⟨"image", none, some ⟨"base64", String.mk mt, String.mk d⟩⟩ := by
  simp [rewriteImagePart, mediaTypeOf_wellFormed hurl hsemi hcolon,
    payloadOf_wellFormed hurl hm hd]

/-- A data URL with no comma fails the rewrite with an `IndexError`. -/
theorem rewriteImagePart_noComma {url : String} (src : Option ImageSource)
    (h : ',' ∉ url.data) :
    rewriteImagePart ⟨"image_url", some url, src⟩ = .error .indexError := by
  simp only [rewriteImagePart]
  cases hm : mediaTypeOf url with
  | none => rfl
  | some mt => simp [payloadOf_noComma h]

/-- The fields of a successfully rewritten part. -/
theorem rewriteImagePart_ok_shape {p p2 : ContentPart}
    (h : rewriteImagePart p = .ok p2) :
    p2.type = "image" ∧ p2.image_url = none ∧ p2.source.isSome := by
  unfold rewriteImagePart at h
  split at h
  · cases h
  · split at h
    · cases h
    · split at h
      · cases h
      · cases h
        exact ⟨rfl, rfl, rfl⟩

theorem updateParts_preserve {ids : List Nat} :
    ∀ {st st2 : Store} {id : Nat}, updateParts ids st = .ok st2 → id ∉ ids →
      st2[id]? = st[id]? := by
  induction ids with
  | nil =>
    intro st st2 id h _
    cases h
    rfl
  | cons j rest ih =>
    intro st st2 id h hid
    simp only [List.mem_cons, not_or] at hid
    simp only [updateParts] at h
    cases hj : st[j]? with
    | none => simp only [hj] at h; cases h
    | some q =>
      simp only [hj] at h
      by_cases hq : q.type = "image_url"
      · rw [if_pos hq] at h
        cases hr : rewriteImagePart q with
        | error e => simp only [hr] at h; cases h
        | ok q2 =>
          simp only [hr] at h
          rw [ih h hid.2, List.getElem?_set_ne (fun he => hid.1 he.symm)]
      · rw [if_neg hq] at h
        exact ih h hid.2

theorem updateParts_stable {ids : List Nat} :
    ∀ {st st2 : Store} {id : Nat} {p2 : ContentPart}, st[id]? = some p2 →
      p2.type ≠ "image_url" → updateParts ids st = .ok st2 → st2[id]? = some p2 := by
  induction ids with
  | nil =>
    intro st st2 id p2 hst _ h
    cases h
    exact hst
  | cons j rest ih =>
    intro st st2 id p2 hst hp2 h
    simp only [updateParts] at h
    cases hj : st[j]? with
    | none => simp only [hj] at h; cases h
    | some q =>
      simp only [hj] at h
      by_cases hq : q.type = "image_url"
      · rw [if_pos hq] at h
        cases hr : rewriteImagePart q with
        | error e => simp only [hr] at h; cases h
        | ok q2 =>
          simp only [hr] at h
          by_cases hji : j = id
          · subst hji
            rw [hj] at hst
            injection hst with he
            subst he
            exact absurd hq hp2
          · refine ih ?_ hp2 h
            rw [List.getElem?_set_ne hji]
            exact hst
      · rw [if_neg hq] at h
        exact ih hst hp2 h

theorem updateParts_hit {ids : List Nat} :
    ∀ {st st2 : Store} {id : Nat} {p p2 : ContentPart}, st[id]? = some p →
      p.type = "image_url" → rewriteImagePart p = .ok p2 → id ∈ ids →
      updateParts ids st = .ok st2 → st2[id]? = some p2 := by
  induction ids with
  | nil =>
    intro st st2 id p p2 _ _ _ hmem _
    cases hmem
  | cons j rest ih =>
    intro st st2 id p p2 hst hp hr hmem h
    have hp2 : p2.type ≠ "image_url" := by
      rw [(rewriteImagePart_ok_shape hr).1]
      decide
    simp only [updateParts] at h
    cases hj : st[j]? with
    | none =>
      simp only [hj] at h
      cases h
    | some q =>
      simp only [hj] at h
      by_cases hji : j = id
      · subst hji
        rw [hst] at hj
        injection hj with he
        subst he
        rw [if_pos hp] at h
        simp only [hr] at h
        have hlt : j < st.length := (List.getElem?_eq_some.mp hst).1
        have hset : (st.set j p2)[j]? = some p2 := by
          simp [List.getElem?_set_self, hlt]
        exact updateParts_stable hset hp2 h
      · have hmem2 : id ∈ rest := by
          cases List.mem_cons.mp hmem with
          | inl he => exact absurd he.symm hji
          | inr hm => exact hm
        by_cases hq : q.type = "image_url"
        · rw [if_pos hq] at h
          cases hrq : rewriteImagePart q with
          | error e => simp only [hrq] at h; cases h
          | ok q2 =>
            simp only [hrq] at h
            refine ih ?_ hp hr hmem2 h
            rw [List.getElem?_set_ne hji]
            exact hst
        · rw [if_neg hq] at h
          exact ih hst hp hr hmem2 h

theorem updateMsgs_stable {msgs : List Msg} :
    ∀ {st st2 : Store} {id : Nat} {p2 : ContentPart}, st[id]? = some p2 →
      p2.type ≠ "image_url" → updateMsgs msgs st = .ok st2 → st2[id]? = some p2 := by
  induction msgs with
  | nil =>
    intro st st2 id p2 hst _ h
    cases h
    exact hst
  | cons m rest ih =>
    intro st st2 id p2 hst hp2 h
    simp only [updateMsgs] at h
    cases hc : m.content with
    | str s =>
      simp only [hc] at h
      exact ih hst hp2 h
    | parts ids =>
      simp only [hc] at h
      cases hu : updateParts ids st with
      | error e => simp only [hu] at h; cases h
      | ok st3 =>
        simp only [hu] at h
        exact ih (updateParts_stable hst hp2 hu) hp2 h

theorem updateMsgs_hit {msgs : List Msg} :
    ∀ {st st2 : Store} {m : Msg} {ids : List Nat} {id : Nat} {p p2 : ContentPart},
      m ∈ msgs → m.content = .parts ids → id ∈ ids → st[id]? = some p →
      p.type = "image_url" → rewriteImagePart p = .ok p2 →
      updateMsgs msgs st = .ok st2 → st2[id]? = some p2 := by
  induction msgs with
  | nil =>
    intro st st2 m ids id p p2 hmem _ _ _ _ _ _
    cases hmem
  | cons m1 rest ih =>
    intro st st2 m ids id p p2 hmem hc hid hst hp hr h
    have hp2 : p2.type ≠ "image_url" := by
      rw [(rewriteImagePart_ok_shape hr).1]
      decide
    simp only [updateMsgs] at h
    cases hmem1 : m1.content with
    | str s =>
      simp only [hmem1] at h
      cases List.mem_cons.mp hmem with
      | inl he =>
        subst he
        rw [hmem1] at hc
        cases hc
      | inr hm => exact ih hm hc hid hst hp hr h
    | parts ids1 =>
      simp only [hmem1] at h
      cases hu : updateParts ids1 st with
      | error e => simp only [hu] at h; cases h
      | ok st3 =>
        simp only [hu] at h
        cases List.mem_cons.mp hmem with
        | inl he =>
          subst he
          rw [hmem1] at hc
          injection hc with he2
          subst he2
          exact updateMsgs_stable (updateParts_hit hst hp hr hid hu) hp2 h
        | inr hm =>
          by_cases hin : id ∈ ids1
          · exact updateMsgs_stable (updateParts_hit hst hp hr hin hu) hp2 h
          · exact ih hm hc hid (by rw [updateParts_preserve hu hin]; exact hst) hp hr h

theorem length_filterMap_isSome {α β : Type} (f : α → Option β) (l : List α) :
    (l.filterMap f).length = (l.filter (fun a => (f a).isSome)).length := by
  induction l with
  | nil => rfl
  | cons a rest ih =>
    rcases hf : f a with _ | b <;>
      simp [List.filterMap_cons, List.filter_cons, hf, ih]

theorem bedrockWrap_ok {α : Type} {x : Except PyError α} {r : α}
    (h : bedrockWrap x = .ok r) : x = .ok r := by
  cases x with
  | ok a =>
    injection h with he
    rw [he]
  | error e => cases e <;> simp [bedrockWrap] at h

theorem bedrockBody_ok {messages : List Msg} {store : Store}
    {invoke : Except PyError (List BedrockEvent)} {final : String} {st2 : Store}
    {calls : List String}
    (h : bedrockBody messages store invoke = .ok (final, st2, calls)) :
    ∃ events, invoke = .ok events ∧ decodeEventLoop events "" [] = .ok (final, calls) := by
  unfold bedrockBody at h
  cases ht : translate messages store with
  | error e => simp only [ht] at h; cases h
  | ok r =>
    obtain ⟨sys, turns, store3⟩ := r
    simp only [ht] at h
    cases invoke with
    | error e => cases h
    | ok events =>
      refine ⟨events, rfl, ?_⟩
      cases hd : decodeEventLoop events "" [] with
      | error e => simp only [hd] at h; cases h
      | ok r2 =>
        obtain ⟨f, cs⟩ := r2
        simp only [hd] at h
        injection h with h2
        simp only [Prod.mk.injEq] at h2
        obtain ⟨hf, _, hc⟩ := h2
        subst hf
        subst hc
        rfl

/-- The native two-pass orchestrator in closed form: the returned text is
pass 2's final text, the message list gains the four appended entries,
and the per-pass requests carry the provisional prefix turn exactly when
the toggle is on. -/
theorem native_closed (sp : String) (msgs : List Msg) (passes : Nat → NativePass)
    (it : Bool) :
    stream_claude_response_native sp msgs passes it =
      .ok ((passes 2).finalText,
        msgs ++ passEntries (passes 1).finalText (passes 2).finalText,
        sentRequests msgs (passes 1).finalText it) := by
  cases it <;>
    simp [stream_claude_response_native, runNativePasses, passEntries, sentRequests,
      List.append_assoc]

/-- The Bedrock two-pass orchestrator in closed form, given that both
invocations succeed and both event streams decode: it returns
`full_stream`, the concatenation of the two passes' streamed text. -/
theorem bedrock_closed (sp : String) (msgs : List Msg)
    (passes : Nat → Except PyError (List BedrockEvent)) (it : Bool)
    {e1 e2 : List BedrockEvent} {t1 t2 : String} {c1 c2 : List String}
    (h1 : passes 1 = .ok e1) (h2 : passes 2 = .ok e2)
    (d1 : decodeEventLoop e1 "" [] = .ok (t1, c1))
    (d2 : decodeEventLoop e2 "" [] = .ok (t2, c2)) :
    stream_claude_response_native_aws_bedrock sp msgs passes it =
      .ok (t1 ++ t2, msgs ++ passEntries t1 t2, sentRequests msgs t1 it) := by
  cases it <;>
    simp [stream_claude_response_native_aws_bedrock, runBedrockPasses, h1, h2, d1, d2,
      bedrockWrap, passEntries, sentRequests, List.append_assoc]

/-! ### Claims -/

/-- C1: for every single streaming call in each of the three provider
variants, the text returned by the call equals, byte for byte, the
concatenation in arrival order of all increments delivered to the sink
callback (for the native-SDK variant under the transport's contract that
its final aggregated message equals the concatenation of its stream). -/
theorem claim_C1 :
    (∀ chunks : List (Option String),
      (stream_openai_response chunks).1 = strJoin (stream_openai_response chunks).2) ∧
    (∀ (messages : List Msg) (store : Store) (invoke : Except PyError (List BedrockEvent))
       (final : String) (st2 : Store) (calls : List String),
      stream_claude_response_aws_bedrock messages store invoke = .ok (final, st2, calls) →
      final = strJoin calls) ∧
    (∀ (messages : List Msg) (store : Store) (t : NativePass) (final : String)
       (st2 : Store) (calls : List String),
      t.finalText = strJoin t.textStream →
      stream_claude_response messages store t = .ok (final, st2, calls) →
      final = strJoin calls) := by
  refine ⟨?_, ?_, ?_⟩
  · intro chunks
    simp [stream_openai_response, openaiLoop_eq, String.empty_append]
  · intro messages store invoke final st2 calls h
    unfold stream_claude_response_aws_bedrock at h
    obtain ⟨events, _, hdec⟩ := bedrockBody_ok (bedrockWrap_ok h)
    obtain ⟨h1, h2⟩ := decodeEventLoop_ok hdec
    rw [h1, h2]
    simp [String.empty_append]
  · intro messages store t final st2 calls hagree h
    unfold stream_claude_response at h
    cases ht : translate messages store with
    | error e => simp only [ht] at h; cases h
    | ok r =>
      obtain ⟨a, b, c⟩ := r
      simp only [ht] at h
      injection h with h2
      simp only [Prod.mk.injEq] at h2
      obtain ⟨hf, _, hc⟩ := h2
      rw [← hf, ← hc]
      exact hagree

theorem claim_C1_witness :
    (NativePass.mk ["a", "b"] "ab").finalText =
      strJoin (NativePass.mk ["a", "b"] "ab").textStream ∧
    stream_claude_response sampleMsgs [] ⟨["a", "b"], "ab"⟩ = .ok ("ab", [], ["a", "b"]) ∧
    ("ab" : String) = strJoin ["a", "b"] :=
  ⟨by decide, by decide,
    claim_C1.2.2 sampleMsgs [] ⟨["a", "b"], "ab"⟩ "ab" [] ["a", "b"] (by decide) (by decide)⟩

/-- C5: a message list of length N ≥ 1 translates to exactly one system
prompt, equal to the first message's content, and exactly N-1 translated
turns; the first message never reappears in the turn list. -/
theorem claim_C5 :
    ∀ (m0 : Msg) (rest : List Msg) (store : Store) (sys : MsgContent)
      (turns : List Msg) (st2 : Store),
      translate (m0 :: rest) store = .ok (sys, turns, st2) →
      sys = m0.content ∧ turns = rest ∧ turns.length + 1 = (m0 :: rest).length ∧
      (m0 ∉ rest → m0 ∉ turns) := by
  intro m0 rest store sys turns st2 h
  unfold translate at h
  cases hu : updateMsgs rest store with
  | error e => simp only [hu] at h; cases h
  | ok st3 =>
    simp only [hu] at h
    injection h with h2
    simp only [Prod.mk.injEq] at h2
    obtain ⟨hs, ht, _⟩ := h2
    subst hs
    subst ht
    exact ⟨rfl, rfl, by simp, fun hn => hn⟩

theorem claim_C5_witness :
    translate sampleMsgs [] = .ok (.str "sp", [⟨"user", .str "hi"⟩], []) ∧
    MsgContent.str "sp" = (Msg.mk "system" (.str "sp")).content ∧
    [Msg.mk "user" (.str "hi")].length + 1 = sampleMsgs.length :=
  ⟨by decide,
    (claim_C5 ⟨"system", .str "sp"⟩ [⟨"user", .str "hi"⟩] [] (.str "sp")
      [⟨"user", .str "hi"⟩] [] (by decide)).1,
    (claim_C5 ⟨"system", .str "sp"⟩ [⟨"user", .str "hi"⟩] [] (.str "sp")
      [⟨"user", .str "hi"⟩] [] (by decide)).2.2.1⟩

/-- C6: an image part with a well-formed data URL translates to the
media-type segment and the after-comma payload; a data URL with no comma
fails with the `IndexError` (the MalformedInput condition), and a failed
translation decides the Bedrock call before the transport is consulted. -/
theorem claim_C6 :
    (∀ (mt d : List Char) (url : String) (src : Option ImageSource),
      url.data = "data:".data ++ mt ++ ";base64,".data ++ d →
      ';' ∉ mt → ':' ∉ mt → ',' ∉ mt → ',' ∉ d →
      rewriteImagePart ⟨"image_url", some url, src⟩ =
        .ok ⟨"image", none, some ⟨"base64", String.mk mt, String.mk d⟩⟩) ∧
    (∀ (url : String) (src : Option ImageSource), ',' ∉ url.data →
      rewriteImagePart ⟨"image_url", some url, src⟩ = .error .indexError) ∧
    (∀ (messages : List Msg) (store : Store) (e : PyError)
       (invoke : Except PyError (List BedrockEvent)),
      translate messages store = .error e →
      bedrockBody messages store invoke = .error e) := by
  refine ⟨?_, ?_, ?_⟩
  · intro mt d url src hurl h1 h2 h3 h4
    exact rewriteImagePart_wellFormed src hurl h1 h2 h3 h4
  · intro url src h
    exact rewriteImagePart_noComma src h
  · intro messages store e invoke h
    unfold bedrockBody
    simp only [h]

theorem claim_C6_witness :
    ("data:image/png;base64,AAAA" : String).data =
      "data:".data ++ "image/png".data ++ ";base64,".data ++ "AAAA".data ∧
    rewriteImagePart ⟨"image_url", some "data:image/png;base64,AAAA", none⟩ =
      .ok ⟨"image", none, some ⟨"base64", String.mk "image/png".data,
        String.mk "AAAA".data⟩⟩ ∧
    rewriteImagePart ⟨"image_url", some "data:image/png;base64AAAA", none⟩ =
      .error .indexError :=
  ⟨by decide,
    claim_C6.1 "image/png".data "AAAA".data "data:image/png;base64,AAAA" none
      (by decide) (by decide) (by decide) (by decide) (by decide),
    claim_C6.2.1 "data:image/png;base64AAAA" none (by decide)⟩

/-- C7: the conversion maps the two special-cased legacy short names to
the GPT-4 vision and Claude 3 Sonnet identifiers, and fails with the
`ValueError` (InvalidModel condition) on every string outside the closed
lookup instead of passing it through. -/
theorem claim_C7 :
    convert_frontend_str_to_llm "gpt_4_vision" = .ok .GPT_4_VISION ∧
    Llm.GPT_4_VISION.value = "gpt-4-vision-preview" ∧
    convert_frontend_str_to_llm "claude_3_sonnet" = .ok .CLAUDE_3_SONNET ∧
    Llm.CLAUDE_3_SONNET.value = "claude-3-sonnet-20240229" ∧
    (∀ s : String, s ∉ recognizedNames →
      convert_frontend_str_to_llm s = .error .valueError) := by
  refine ⟨by decide, by decide, by decide, by decide, ?_⟩
  intro s hs
  simp only [recognizedNames, Llm.members, Llm.value, List.map, List.mem_cons,
    not_or, List.not_mem_nil, or_false] at hs
  obtain ⟨h1, h2, h3, h4, h5, h6, h7⟩ := hs
  simp [convert_frontend_str_to_llm, h1, h2, Llm.members, List.find?, Llm.value,
    Ne.symm h3, Ne.symm h4, Ne.symm h5, Ne.symm h6, Ne.symm h7]

theorem claim_C7_witness :
    ("some_unknown_model" : String) ∉ recognizedNames ∧
    convert_frontend_str_to_llm "some_unknown_model" = .error .valueError :=
  ⟨by decide, claim_C7.2.2.2.2 "some_unknown_model" (by decide)⟩

/-- C9: the direct-API variant delivers one increment per event to the
sink, empty increments included; the managed-gateway variant delivers
one increment per content-delta event and none for any other event. -/
theorem claim_C9 :
    (∀ chunks : List (Option String),
      (stream_openai_response chunks).2 = chunks.map (fun c => c.getD "") ∧
      (stream_openai_response chunks).2.length = chunks.length) ∧
    (∀ (messages : List Msg) (store : Store) (events : List BedrockEvent)
       (final : String) (st2 : Store) (calls : List String),
      stream_claude_response_aws_bedrock messages store (.ok events) = .ok (final, st2, calls) →
      calls = events.filterMap deltaOf ∧
      calls.length = (events.filter (fun e => (deltaOf e).isSome)).length) := by
  constructor
  · intro chunks
    simp [stream_openai_response, openaiLoop_eq]
  · intro messages store events final st2 calls h
    unfold stream_claude_response_aws_bedrock at h
    obtain ⟨events2, hinv, hdec⟩ := bedrockBody_ok (bedrockWrap_ok h)
    injection hinv with he
    subst he
    obtain ⟨_, h2⟩ := decodeEventLoop_ok hdec
    simp only [List.nil_append] at h2
    exact ⟨h2, by rw [h2]; exact length_filterMap_isSome deltaOf events⟩

theorem claim_C9_witness :
    stream_claude_response_aws_bedrock sampleMsgs []
        (.ok [.noChunk, .chunk "message_start" none,
          .chunk "content_block_delta" (some "x"),
          .chunk "content_block_delta" (some ""),
          .chunk "message_stop" none]) = .ok ("x", [], ["x", ""]) ∧
    (["x", ""] : List String) =
      [BedrockEvent.noChunk, .chunk "message_start" none,
        .chunk "content_block_delta" (some "x"),
        .chunk "content_block_delta" (some ""),
        .chunk "message_stop" none].filterMap deltaOf :=
  ⟨by decide,
    (claim_C9.2 sampleMsgs []
      [.noChunk, .chunk "message_start" none, .chunk "content_block_delta" (some "x"),
        .chunk "content_block_delta" (some ""), .chunk "message_stop" none]
      "x" [] ["x", ""] (by decide)).1⟩

set_option maxRecDepth 40000 in
/-- C2 counterexample: with the fake transport yielding `"A"` on pass 1
and `"B"` on pass 2, the Bedrock orchestrator returns `full_stream`,
which is `"AB"`, not the second pass's text `"B"`. -/
theorem claim_C2_cex :
    stream_claude_response_native_aws_bedrock "sp" userMsgs bedrockAB false =
      .ok ("AB", userMsgs ++ passEntries "A" "B", sentRequests userMsgs "A" false) ∧
    ("AB" : String) ≠ "B" :=
  ⟨by decide, by decide⟩

set_option maxRecDepth 40000 in
/-- C2 (amended): the native orchestrator returns exactly pass 2's final
text; the Bedrock orchestrator instead returns the concatenation of the
text streamed across both passes. -/
theorem claim_C2 :
    (∀ (sp : String) (msgs : List Msg) (passes : Nat → NativePass) (it : Bool),
      stream_claude_response_native sp msgs passes it =
        .ok ((passes 2).finalText,
          msgs ++ passEntries (passes 1).finalText (passes 2).finalText,
          sentRequests msgs (passes 1).finalText it)) ∧
    (∀ (sp : String) (msgs : List Msg)
       (passes : Nat → Except PyError (List BedrockEvent)) (it : Bool)
       (e1 e2 : List BedrockEvent) (t1 t2 : String) (c1 c2 : List String),
      passes 1 = .ok e1 → passes 2 = .ok e2 →
      decodeEventLoop e1 "" [] = .ok (t1, c1) →
      decodeEventLoop e2 "" [] = .ok (t2, c2) →
      stream_claude_response_native_aws_bedrock sp msgs passes it =
        .ok (t1 ++ t2, msgs ++ passEntries t1 t2, sentRequests msgs t1 it)) := by
  constructor
  · intro sp msgs passes it
    exact native_closed sp msgs passes it
  · intro sp msgs passes it e1 e2 t1 t2 c1 c2 h1 h2 d1 d2
    exact bedrock_closed sp msgs passes it h1 h2 d1 d2

set_option maxRecDepth 40000 in
theorem claim_C2_witness :
    bedrockAB 1 = .ok [.chunk "content_block_delta" (some "A")] ∧
    bedrockAB 2 = .ok [.chunk "content_block_delta" (some "B")] ∧
    decodeEventLoop [.chunk "content_block_delta" (some "A")] "" [] = .ok ("A", ["A"]) ∧
    decodeEventLoop [.chunk "content_block_delta" (some "B")] "" [] = .ok ("B", ["B"]) ∧
    stream_claude_response_native_aws_bedrock "sp" userMsgs bedrockAB false =
      .ok ("A" ++ "B", userMsgs ++ passEntries "A" "B", sentRequests userMsgs "A" false) :=
  ⟨by decide, by decide, by decide, by decide,
    claim_C2.2 "sp" userMsgs bedrockAB false
      [.chunk "content_block_delta" (some "A")] [.chunk "content_block_delta" (some "B")]
      "A" "B" ["A"] ["B"] (by decide) (by decide) (by decide) (by decide)⟩

set_option maxRecDepth 40000 in
/-- C3 counterexample: after the two-pass run with the fake A/B
transport, the caller's message list holds the original turns plus FOUR
appended entries (two per pass), not just the two pass-1 entries. -/
theorem claim_C3_cex :
    stream_claude_response_native "sp" userMsgs passAB false =
      .ok ("B", userMsgs ++ passEntries "A" "B", sentRequests userMsgs "A" false) ∧
    userMsgs ++ passEntries "A" "B" ≠
      userMsgs ++ [⟨"assistant", .str (prefixStr ++ "A")⟩, followUpMsg] :=
  ⟨by decide, by decide⟩

set_option maxRecDepth 40000 in
/-- C3 (amended): the loop body appends the two fixed-shape entries
after every pass, including the final one, so after completion the
message list holds the original turns plus the two pass-1 entries AND
the two pass-2 entries; nothing further is appended after the loop. -/
theorem claim_C3 :
    (∀ (sp : String) (msgs : List Msg) (passes : Nat → NativePass) (it : Bool)
       (r : String) (ms : List Msg) (rq : List (List Msg)),
      stream_claude_response_native sp msgs passes it = .ok (r, ms, rq) →
      ms = msgs ++ passEntries (passes 1).finalText (passes 2).finalText) ∧
    (∀ (sp : String) (msgs : List Msg)
       (passes : Nat → Except PyError (List BedrockEvent)) (it : Bool)
       (e1 e2 : List BedrockEvent) (t1 t2 : String) (c1 c2 : List String)
       (r : String) (ms : List Msg) (rq : List (List Msg)),
      passes 1 = .ok e1 → passes 2 = .ok e2 →
      decodeEventLoop e1 "" [] = .ok (t1, c1) →
      decodeEventLoop e2 "" [] = .ok (t2, c2) →
      stream_claude_response_native_aws_bedrock sp msgs passes it = .ok (r, ms, rq) →
      ms = msgs ++ passEntries t1 t2) := by
  constructor
  · intro sp msgs passes it r ms rq h
    rw [native_closed] at h
    injection h with h2
    simp only [Prod.mk.injEq] at h2
    exact h2.2.1.symm
  · intro sp msgs passes it e1 e2 t1 t2 c1 c2 r ms rq h1 h2 d1 d2 h
    rw [bedrock_closed sp msgs passes it h1 h2 d1 d2] at h
    injection h with h3
    simp only [Prod.mk.injEq] at h3
    exact h3.2.1.symm

set_option maxRecDepth 40000 in
theorem claim_C3_witness :
    stream_claude_response_native "x" userMsgs passAB true =
      .ok ("B", userMsgs ++ passEntries "A" "B", sentRequests userMsgs "A" true) ∧
    userMsgs ++ passEntries "A" "B" =
      userMsgs ++ passEntries (passAB 1).finalText (passAB 2).finalText :=
  ⟨by decide,
    claim_C3.1 "x" userMsgs passAB true "B" (userMsgs ++ passEntries "A" "B")
      (sentRequests userMsgs "A" true) (by decide)⟩

/-- C4 counterexample: a `ClientError` during a managed-gateway call is
not re-raised: the call ends in the caught-and-printed state (the
function returns `None`), not in a raised state. -/
theorem claim_C4_cex :
    stream_claude_response_aws_bedrock sampleMsgs []
        (.error (.clientError "AccessDenied")) =
      .swallowedClientError "A client error occurred: AccessDenied" ∧
    (BedrockOutcome.swallowedClientError "A client error occurred: AccessDenied" :
        BedrockOutcome (String × Store × List String)) ≠
      .raised (.clientError "AccessDenied") :=
  ⟨by decide, by decide⟩

/-- C4 (amended): in both managed-gateway variants a `ClientError` is
caught, a descriptive message is printed, and the call returns without
re-raising (the error is swallowed); every other exception is printed
and re-raised to the caller. -/
theorem claim_C4 :
    (∀ (messages : List Msg) (store : Store) (m : String)
       (r : MsgContent × List Msg × Store),
      translate messages store = .ok r →
      stream_claude_response_aws_bedrock messages store (.error (.clientError m)) =
        .swallowedClientError ("A client error occurred: " ++ m)) ∧
    (∀ (messages : List Msg) (store : Store) (m : String)
       (r : MsgContent × List Msg × Store),
      translate messages store = .ok r →
      stream_claude_response_aws_bedrock messages store (.error (.exception m)) =
        .raised (.exception m)) ∧
    (∀ (sp : String) (msgs : List Msg)
       (passes : Nat → Except PyError (List BedrockEvent)) (it : Bool) (m : String),
      passes 1 = .error (.clientError m) →
      stream_claude_response_native_aws_bedrock sp msgs passes it =
        .swallowedClientError ("A client error occurred: " ++ m)) ∧
    (∀ (sp : String) (msgs : List Msg)
       (passes : Nat → Except PyError (List BedrockEvent)) (it : Bool) (m : String),
      passes 1 = .error (.exception m) →
      stream_claude_response_native_aws_bedrock sp msgs passes it =
        .raised (.exception m)) := by
  refine ⟨?_, ?_, ?_, ?_⟩
  · intro messages store m r h
    obtain ⟨sys, turns, st3⟩ := r
    simp [stream_claude_response_aws_bedrock, bedrockBody, h, bedrockWrap]
  · intro messages store m r h
    obtain ⟨sys, turns, st3⟩ := r
    simp [stream_claude_response_aws_bedrock, bedrockBody, h, bedrockWrap]
  · intro sp msgs passes it m h1
    cases it <;>
      simp [stream_claude_response_native_aws_bedrock, runBedrockPasses, h1, bedrockWrap]
  · intro sp msgs passes it m h1
    cases it <;>
      simp [stream_claude_response_native_aws_bedrock, runBedrockPasses, h1, bedrockWrap]

theorem claim_C4_witness :
    translate sampleMsgs [] = .ok (.str "sp", [⟨"user", .str "hi"⟩], []) ∧
    stream_claude_response_aws_bedrock sampleMsgs [] (.error (.clientError "boom")) =
      .swallowedClientError ("A client error occurred: " ++ "boom") :=
  ⟨by decide,
    claim_C4.1 sampleMsgs [] "boom" (.str "sp", [⟨"user", .str "hi"⟩], []) (by decide)⟩

/-- The provisional prefix-only turn differs from an appended assistant
entry whose pass text is nonempty. -/
theorem prefixMsg_ne_entry {t : String} (ht : t ≠ "") :
    prefixMsg ≠ Msg.mk "assistant" (.str (prefixStr ++ t)) := by
  intro he
  have hc := congrArg Msg.content he
  simp only [prefixMsg] at hc
  injection hc with hs
  exact str_append_right_ne ht hs.symm

/-- C8: the include-thinking toggle adds the provisional assistant
prefix turn to each outgoing request only; the persisted message list is
the same with the toggle on or off, and (when the pass texts are
nonempty and the caller's list lacks it) never holds the bare
prefix-only entry. -/
theorem claim_C8 :
    (∀ (sp : String) (msgs : List Msg) (passes : Nat → NativePass)
       (r1 : String) (ms1 : List Msg) (rq1 : List (List Msg))
       (r2 : String) (ms2 : List Msg) (rq2 : List (List Msg)),
      stream_claude_response_native sp msgs passes true = .ok (r1, ms1, rq1) →
      stream_claude_response_native sp msgs passes false = .ok (r2, ms2, rq2) →
      ms1 = ms2 ∧ rq1 = rq2.map (fun q => q ++ [prefixMsg])) ∧
    (∀ (sp : String) (msgs : List Msg)
       (passes : Nat → Except PyError (List BedrockEvent))
       (e1 e2 : List BedrockEvent) (t1 t2 : String) (c1 c2 : List String)
       (r1 : String) (ms1 : List Msg) (rq1 : List (List Msg))
       (r2 : String) (ms2 : List Msg) (rq2 : List (List Msg)),
      passes 1 = .ok e1 → passes 2 = .ok e2 →
      decodeEventLoop e1 "" [] = .ok (t1, c1) →
      decodeEventLoop e2 "" [] = .ok (t2, c2) →
      stream_claude_response_native_aws_bedrock sp msgs passes true = .ok (r1, ms1, rq1) →
      stream_claude_response_native_aws_bedrock sp msgs passes false = .ok (r2, ms2, rq2) →
      ms1 = ms2 ∧ rq1 = rq2.map (fun q => q ++ [prefixMsg])) ∧
    (∀ (sp : String) (msgs : List Msg) (passes : Nat → NativePass)
       (r : String) (ms : List Msg) (rq : List (List Msg)),
      stream_claude_response_native sp msgs passes true = .ok (r, ms, rq) →
      prefixMsg ∉ msgs → (passes 1).finalText ≠ "" → (passes 2).finalText ≠ "" →
      prefixMsg ∉ ms) := by
  refine ⟨?_, ?_, ?_⟩
  · intro sp msgs passes r1 ms1 rq1 r2 ms2 rq2 h1 h2
    rw [native_closed] at h1 h2
    injection h1 with h1b
    injection h2 with h2b
    simp only [Prod.mk.injEq] at h1b h2b
    rw [← h1b.2.1, ← h2b.2.1, ← h1b.2.2, ← h2b.2.2]
    exact ⟨rfl, by simp [sentRequests, List.append_assoc]⟩
  · intro sp msgs passes e1 e2 t1 t2 c1 c2 r1 ms1 rq1 r2 ms2 rq2 he1 he2 d1 d2 h1 h2
    rw [bedrock_closed sp msgs passes true he1 he2 d1 d2] at h1
    rw [bedrock_closed sp msgs passes false he1 he2 d1 d2] at h2
    injection h1 with h1b
    injection h2 with h2b
    simp only [Prod.mk.injEq] at h1b h2b
    rw [← h1b.2.1, ← h2b.2.1, ← h1b.2.2, ← h2b.2.2]
    exact ⟨rfl, by simp [sentRequests, List.append_assoc]⟩
  · intro sp msgs passes r ms rq h hmem ht1 ht2
    rw [native_closed] at h
    injection h with hb
    simp only [Prod.mk.injEq] at hb
    rw [← hb.2.1]
    simp only [passEntries, List.mem_append, List.mem_cons, List.not_mem_nil, or_false,
      not_or]
    refine ⟨hmem, prefixMsg_ne_entry ht1, by decide, prefixMsg_ne_entry ht2, by decide⟩

set_option maxRecDepth 40000 in
theorem claim_C8_witness :
    stream_claude_response_native "sp" userMsgs passAB true =
      .ok ("B", userMsgs ++ passEntries "A" "B", sentRequests userMsgs "A" true) ∧
    stream_claude_response_native "sp" userMsgs passAB false =
      .ok ("B", userMsgs ++ passEntries "A" "B", sentRequests userMsgs "A" false) ∧
    userMsgs ++ passEntries "A" "B" = userMsgs ++ passEntries "A" "B" ∧
    sentRequests userMsgs "A" true =
      (sentRequests userMsgs "A" false).map (fun q => q ++ [prefixMsg]) :=
  ⟨by decide, by decide,
    (claim_C8.1 "sp" userMsgs passAB "B" (userMsgs ++ passEntries "A" "B")
      (sentRequests userMsgs "A" true) "B" (userMsgs ++ passEntries "A" "B")
      (sentRequests userMsgs "A" false) (by decide) (by decide)).1,
    (claim_C8.1 "sp" userMsgs passAB "B" (userMsgs ++ passEntries "A" "B")
      (sentRequests userMsgs "A" true) "B" (userMsgs ++ passEntries "A" "B")
      (sentRequests userMsgs "A" false) (by decide) (by decide)).2⟩

/-- C10 (implicit): the per-message copy is shallow, so translation
rewrites the caller's own nested image parts in place: after a
successful translation, the part the caller's message references holds
type `"image"`, no `image_url`, and a new `source` — it is no longer the
part the caller passed in. -/
theorem claim_C10 :
    ∀ (m0 : Msg) (rest : List Msg) (store : Store) (sys : MsgContent)
      (turns : List Msg) (st2 : Store) (m : Msg) (ids : List Nat) (id : Nat)
      (p p2 : ContentPart),
      translate (m0 :: rest) store = .ok (sys, turns, st2) →
      m ∈ rest → m.content = .parts ids → id ∈ ids →
      store[id]? = some p → p.type = "image_url" → rewriteImagePart p = .ok p2 →
      st2[id]? = some p2 ∧ p2.type = "image" ∧ p2.image_url = none ∧
        p2.source.isSome ∧ p ≠ p2 ∧ turns = rest := by
  intro m0 rest store sys turns st2 m ids id p p2 h hm hc hid hp htype hr
  unfold translate at h
  cases hu : updateMsgs rest store with
  | error e => simp only [hu] at h; cases h
  | ok st3 =>
    simp only [hu] at h
    injection h with h2
    simp only [Prod.mk.injEq] at h2
    obtain ⟨_, hturns, hst⟩ := h2
    subst hturns
    subst hst
    have hshape := rewriteImagePart_ok_shape hr
    refine ⟨updateMsgs_hit hm hc hid hp htype hr hu, hshape.1, hshape.2.1,
      hshape.2.2, ?_, rfl⟩
    intro he
    rw [he, hshape.1] at htype
    exact absurd htype (by decide)

theorem claim_C10_witness :
    translate imageMsgs imageStore =
      .ok (.str "sp", [⟨"user", .parts [0]⟩], [imagePartRewritten]) ∧
    imageStore[0]? = some (ContentPart.mk "image_url"
      (some "data:image/png;base64,AAAA") none) ∧
    ([imagePartRewritten] : Store)[0]? = some imagePartRewritten ∧
    ContentPart.mk "image_url" (some "data:image/png;base64,AAAA") none ≠
      imagePartRewritten :=
  ⟨by decide, by decide,
    (claim_C10 ⟨"system", .str "sp"⟩ [⟨"user", .parts [0]⟩] imageStore (.str "sp")
      [⟨"user", .parts [0]⟩] [imagePartRewritten] ⟨"user", .parts [0]⟩ [0] 0
      ⟨"image_url", some "data:image/png;base64,AAAA", none⟩ imagePartRewritten
      (by decide) (by decide) (by decide) (by decide) (by decide) (by decide)
      (by decide)).1,
    (claim_C10 ⟨"system", .str "sp"⟩ [⟨"user", .parts [0]⟩] imageStore (.str "sp")
      [⟨"user", .parts [0]⟩] [imagePartRewritten] ⟨"user", .parts [0]⟩ [0] 0
      ⟨"image_url", some "data:image/png;base64,AAAA", none⟩ imagePartRewritten
      (by decide) (by decide) (by decide) (by decide) (by decide) (by decide)
      (by decide)).2.2.2.2.1⟩

end LlmPy
